import Mathlib

/-!
Verification of the catalog query pipeline of the movie-catalog application,
slug codec, page-state handlers, slug resolution, similar-movie selection,
and the user-record bookkeeping of the server.

All definitions are shallow embeddings of the TypeScript source:
`createSlug`/`decodeSlug` from `src/app/utils/slugify.ts`, the filter,
sort and page-state logic from `src/app/App.tsx`, slug resolution and the
similar-movie computation from the detail page, and the auth handlers from
`supabase/functions/server/index.tsx`.  JavaScript numbers are modelled as
rationals, absent fields as `Option`, and JavaScript string methods as
explicit functions on character lists (restricted to their ASCII
behaviour, which is all the code relies on).
-/

/-! ### JavaScript string primitives -/

/-- The characters matched by the JavaScript regex class `\s`. -/
def jsSpaceChars : List Char :=
  [' ', '\t', '\n', '\r', '\u000b', '\u000c', '\u00a0', '\u1680',
   '\u2000', '\u2001', '\u2002', '\u2003', '\u2004', '\u2005', '\u2006',
   '\u2007', '\u2008', '\u2009', '\u200a', '\u2028', '\u2029', '\u202f',
   '\u205f', '\u3000', '\ufeff']

/-- Whether a character is JavaScript whitespace (`\s`). -/
def jsSpace (c : Char) : Bool := jsSpaceChars.contains c

/-- The ASCII uppercase letters. -/
def upperChars : List Char := "ABCDEFGHIJKLMNOPQRSTUVWXYZ".data

/-- The ASCII lowercase letters. -/
def lowerChars : List Char := "abcdefghijklmnopqrstuvwxyz".data

/-- Lowercase word characters: what `\w` matches minus the uppercase letters. -/
def lowercaseWordChars : List Char := lowerChars ++ "0123456789_".data

/-- The characters matched by the JavaScript regex class `\w` (no `u` flag):
`[A-Za-z0-9_]`. -/
def wordChars : List Char := upperChars ++ lowercaseWordChars

/-- Whether a character is a JavaScript word character (`\w`). -/
def isWordChar (c : Char) : Bool := wordChars.contains c

/-- Uppercase/lowercase pairs for ASCII case mapping. -/
def upperLowerPairs : List (Char × Char) := upperChars.zip lowerChars

/-- `String.prototype.toLowerCase` on one character (ASCII range; the code
only relies on ASCII case mapping). -/
def jsLowerChar (c : Char) : Char :=
  match upperLowerPairs.find? (fun p => p.1 == c) with
  | some p => p.2
  | none => c

/-- `String.prototype.toLowerCase` (ASCII behaviour). -/
def jsToLower (s : String) : String := String.mk (s.data.map jsLowerChar)

/-- Whether `pat` is a prefix of `l`. -/
def listPrefixEq : List Char → List Char → Bool
  | [], _ => true
  | _ :: _, [] => false
  | a :: as, b :: bs => a == b && listPrefixEq as bs

/-- Whether `pat` occurs as a contiguous run inside `l`
(`String.prototype.includes` on character lists). -/
def listContainsSub (pat : List Char) : List Char → Bool
  | [] => listPrefixEq pat []
  | c :: rest => listPrefixEq pat (c :: rest) || listContainsSub pat rest

/-- `String.prototype.includes`. -/
def strIncludes (s pat : String) : Bool := listContainsSub pat.data s.data

/-- Replace every maximal run of characters satisfying `p` by the single
character `rep` (the effect of `.replace(/X+/g, rep)` for a character
class `X`): a character inside a run is dropped, and the last
character of each run (the one not followed by another run character) becomes `rep`. -/
def collapseRuns (p : Char → Bool) (rep : Char) : List Char → List Char
  | [] => []
  | c :: cs =>
    if p c then
      if cs.head?.any p then collapseRuns p rep cs
      else rep :: collapseRuns p rep cs
    else c :: collapseRuns p rep cs

/-- `String.prototype.trim` on a character list: drop whitespace from both
ends. -/
def jsTrimList (l : List Char) : List Char :=
  ((l.dropWhile jsSpace).reverse.dropWhile jsSpace).reverse

/-- `createSlug` from `src/app/utils/slugify.ts`: lowercase, strip every
character that is not `\w`, `\s` or `-`, replace whitespace runs by `-`,
collapse `-` runs, then `trim` (which removes whitespace, not hyphens). -/
def createSlug (title : String) : String :=
  let lowered := title.data.map jsLowerChar
  let stripped := lowered.filter (fun c => isWordChar c || jsSpace c || c == '-')
  let hyphenated := collapseRuns jsSpace '-' stripped
  let collapsed := collapseRuns (fun c => c == '-') '-' hyphenated
  String.mk (jsTrimList collapsed)

/-- `decodeSlug` from `src/app/utils/slugify.ts`: replace hyphens by spaces
and lowercase. -/
def decodeSlug (slug : String) : String :=
  jsToLower (String.mk (slug.data.map (fun c => if c == '-' then ' ' else c)))

/-- The detail-page path built by `MovieCard.handleCardClick`, which
navigates to "/movie/" followed by the slug of the movie title. -/
def movieDetailPath (title : String) : String := "/movie/" ++ createSlug title

/-! ### Helper lemmas about the string primitives -/

theorem mem_collapseRuns {p : Char → Bool} {rep : Char} :
    ∀ {l : List Char} {c : Char}, c ∈ collapseRuns p rep l →
      c = rep ∨ (c ∈ l ∧ p c = false) := by
  intro l
  induction l with
  | nil => intro c h; simp [collapseRuns] at h
  | cons c cs ih =>
    intro d hd
    by_cases hpc : p c = true
    · rw [collapseRuns, if_pos hpc] at hd
      by_cases hnext : cs.head?.any p = true
      · rw [if_pos hnext] at hd
        rcases ih hd with h' | h'
        · exact Or.inl h'
        · exact Or.inr ⟨List.mem_cons_of_mem _ h'.1, h'.2⟩
      · rw [if_neg hnext] at hd
        rcases List.mem_cons.mp hd with h | h
        · exact Or.inl h
        · rcases ih h with h' | h'
          · exact Or.inl h'
          · exact Or.inr ⟨List.mem_cons_of_mem _ h'.1, h'.2⟩
    · rw [collapseRuns, if_neg hpc] at hd
      rcases List.mem_cons.mp hd with h | h
      · subst h
        exact Or.inr ⟨List.mem_cons_self _ _, by simpa using hpc⟩
      · rcases ih h with h' | h'
        · exact Or.inl h'
        · exact Or.inr ⟨List.mem_cons_of_mem _ h'.1, h'.2⟩

theorem head_collapseRuns_not_sat {p : Char → Bool} {rep : Char} {l : List Char}
    (hl : ∀ d, l.head? = some d → p d = false) :
    ∀ h, (collapseRuns p rep l).head? = some h → p h = false := by
  cases l with
  | nil => intro h hh; simp [collapseRuns] at hh
  | cons d ds =>
    intro h hh
    have hd : p d = false := hl d rfl
    rw [collapseRuns, if_neg (by simp [hd])] at hh
    simp at hh
    rw [← hh]
    exact hd

theorem chain'_collapseRuns {p : Char → Bool} {rep : Char} :
    ∀ l : List Char,
      (collapseRuns p rep l).Chain' (fun a b => ¬(p a = true ∧ p b = true)) := by
  intro l
  induction l with
  | nil => simp [collapseRuns]
  | cons c cs ih =>
    by_cases hpc : p c = true
    · rw [collapseRuns, if_pos hpc]
      by_cases hnext : cs.head?.any p = true
      · rw [if_pos hnext]
        exact ih
      · rw [if_neg hnext]
        rcases hrec : collapseRuns p rep cs with _ | ⟨h, t⟩
        · simp
        · rw [List.chain'_cons]
          constructor
          · intro hcontra
            have hhead : p h = false := by
              apply @head_collapseRuns_not_sat p rep cs
              · intro d hd
                rw [hd] at hnext
                simpa using hnext
              · rw [hrec]; rfl
            rw [hhead] at hcontra
            exact Bool.false_ne_true hcontra.2
          · rw [← hrec]; exact ih
    · rw [collapseRuns, if_neg hpc]
      rcases hrec : collapseRuns p rep cs with _ | ⟨h, t⟩
      · simp
      · rw [List.chain'_cons]
        refine ⟨fun hcontra => ?_, by rw [← hrec]; exact ih⟩
        exact hpc hcontra.1

theorem dropWhile_eq_self_of_none {p : Char → Bool} {l : List Char}
    (h : ∀ c ∈ l, p c = false) : l.dropWhile p = l := by
  cases l with
  | nil => rfl
  | cons c cs =>
    rw [List.dropWhile_cons]
    simp [h c (List.mem_cons_self _ _)]

theorem jsTrimList_eq_self {l : List Char}
    (h : ∀ c ∈ l, jsSpace c = false) : jsTrimList l = l := by
  unfold jsTrimList
  rw [dropWhile_eq_self_of_none h,
      dropWhile_eq_self_of_none (by intro c hc; exact h c (List.mem_reverse.mp hc)),
      List.reverse_reverse]

theorem jsLowerChar_word_mem_lower {d : Char}
    (h : isWordChar (jsLowerChar d) = true) : jsLowerChar d ∈ lowercaseWordChars := by
  have hsplit : jsLowerChar d ∈ wordChars := by
    simpa [isWordChar] using h
  rw [wordChars, List.mem_append] at hsplit
  rcases hsplit with hup | hlow
  · exfalso
    cases hf : upperLowerPairs.find? (fun p => p.1 == d) with
    | some pr =>
      have heq : jsLowerChar d = pr.2 := by unfold jsLowerChar; rw [hf]
      rw [heq] at hup
      have hmem := List.mem_of_find?_eq_some hf
      have hall : ∀ q ∈ upperLowerPairs, q.2 ∉ upperChars := by decide
      exact hall pr hmem hup
    | none =>
      have heq : jsLowerChar d = d := by unfold jsLowerChar; rw [hf]
      rw [heq] at hup
      have hcover : ∀ u ∈ upperChars, ∃ q ∈ upperLowerPairs, q.1 = u := by decide
      rcases hcover d hup with ⟨q, hq, hq1⟩
      have := List.find?_eq_none.mp hf q hq
      simp [hq1] at this
  · exact hlow

theorem createSlug_data_chars {t : String} :
    ∀ c ∈ (createSlug t).data, c = '-' ∨ (c ∈ lowercaseWordChars ∧ jsSpace c = false) := by
  intro c hc
  unfold createSlug at hc
  simp only [String.data] at hc
  set stripped :=
    (t.data.map jsLowerChar).filter (fun c => isWordChar c || jsSpace c || c == '-') with hs
  set hyphenated := collapseRuns jsSpace '-' stripped with hh
  set collapsed := collapseRuns (fun c => c == '-') '-' hyphenated with hcl
  have hnospace : ∀ d ∈ collapsed, jsSpace d = false := by
    intro d hd
    rcases mem_collapseRuns hd with h | h
    · subst h; decide
    · rcases mem_collapseRuns h.1 with h' | h'
      · subst h'; decide
      · exact h'.2
  rw [jsTrimList_eq_self hnospace] at hc
  rcases mem_collapseRuns hc with h | h
  · exact Or.inl h
  · rcases mem_collapseRuns h.1 with h' | h'
    · exact Or.inl h'
    · refine Or.inr ⟨?_, h'.2⟩
      have hcfilter := List.mem_filter.mp h'.1
      have hclass := hcfilter.2
      have hne : (c == '-') = false := h.2
      rw [h'.2, hne] at hclass
      simp only [Bool.or_false] at hclass
      rcases List.mem_map.mp hcfilter.1 with ⟨d, _, hd⟩
      subst hd
      exact jsLowerChar_word_mem_lower hclass

/-- C2: For every title string `t`, `createSlug t` contains only lowercase
word characters and single (never consecutive) hyphens.  This is the claim
as amended: the original claim also promised no leading and no trailing
hyphen, which the code does not guarantee (its final `.trim()` removes
whitespace, not hyphens, and runs only after all whitespace has already
been replaced by hyphens — see the counterexample). -/
theorem createSlug_charset_single_hyphens (t : String) :
    (∀ c ∈ (createSlug t).data, c = '-' ∨ c ∈ lowercaseWordChars) ∧
      (createSlug t).data.Chain' (fun a b => ¬(a = '-' ∧ b = '-')) := by
  constructor
  · intro c hc
    rcases createSlug_data_chars c hc with h | h
    · exact Or.inl h
    · exact Or.inr h.1
  · unfold createSlug
    simp only [String.data]
    set hyphenated :=
      collapseRuns jsSpace '-'
        ((t.data.map jsLowerChar).filter (fun c => isWordChar c || jsSpace c || c == '-'))
    set collapsed := collapseRuns (fun c => c == '-') '-' hyphenated with hcl
    have hnospace : ∀ d ∈ collapsed, jsSpace d = false := by
      intro d hd
      rcases mem_collapseRuns hd with h | h
      · subst h; decide
      · rcases mem_collapseRuns h.1 with h' | h'
        · subst h'; decide
        · exact h'.2
    rw [jsTrimList_eq_self hnospace]
    have hchain := @chain'_collapseRuns (fun c => c == '-') '-' hyphenated
    rw [← hcl] at hchain
    refine List.Chain'.imp ?_ hchain
    intro a b hab ⟨ha, hb⟩
    exact hab ⟨by simp [ha], by simp [hb]⟩

/-- C2 counterexample: the title " Movie" (leading space) produces the slug
"-movie", which begins with a hyphen, contradicting the claimed
promise of no leading hyphen. -/
theorem createSlug_leading_hyphen_counterexample :
    createSlug " Movie" = "-movie" ∧ (createSlug " Movie").data.head? = some '-' := by
  decide

/-- C10: the non-empty title "???" consists only of characters the encoder
strips, so `createSlug` returns the empty string and the detail
link of the card degenerates to "/movie/" with no slug segment.  The encoder is a
total Lean function on all strings, the model of "never throws". -/
theorem createSlug_empty_slug_degenerate_link :
    createSlug "???" = "" ∧ "???" ≠ "" ∧ movieDetailPath "???" = "/movie/" := by
  decide

/-! ### Catalog data model

A catalog entry as consumed by the client pipeline (the `Movie`
interface of `App.tsx` restricted to the fields the filter/sort/slug logic reads).
JavaScript numbers are rationals; fields that can be absent at runtime are
`Option` (`none` models `undefined`). -/

structure Movie where
  id : Int
  title : String
  description : String
  year : Int
  genre : Option String
  rating : Option ℚ
  imdbRating : Option ℚ
  runtime : Option String
  tags : Option (List String)
  userRating : Option ℚ
  communityRating : Option ℚ
deriving DecidableEq

/-- JavaScript `a || b` on possibly-absent numbers: `a` unless `a` is
`undefined` or `0` (falsy), else `b`. -/
def jsOrNum (a b : Option ℚ) : Option ℚ :=
  match a with
  | some v => if v = 0 then b else some v
  | none => b

/-- The effective rating `movie.imdbRating || movie.rating` used by both
the rating filter and the `imdbRating` sort key. -/
def effectiveRating (m : Movie) : Option ℚ := jsOrNum m.imdbRating m.rating

/-- Digits-to-number (`parseInt` on a nonempty digit string). -/
def digitsToNat (ds : List Char) : Nat :=
  ds.foldl (fun acc d => acc * 10 + (d.toNat - 48)) 0

/-- First run of digits in a character list (the regex `/(\d+)/`). -/
def firstIntList : List Char → Option Nat
  | [] => none
  | c :: cs =>
    if c.isDigit then some (digitsToNat (c :: cs.takeWhile Char.isDigit))
    else firstIntList cs

/-- `parseRuntime` from `App.tsx`: `0` for an absent runtime, else the
first integer found in the text (`0` when there is none). -/
def parseRuntime (runtime : Option String) : Nat :=
  match runtime with
  | none => 0
  | some r => (firstIntList r.data).getD 0

/-- First match of the regex `/(\d+)\s+Season/`: a digit run followed by
at least one whitespace character and the literal text "Season"; returns
the captured number. -/
def seasonNumFrom : List Char → Option Nat
  | [] => none
  | c :: cs =>
    if c.isDigit then
      let afterDigits := cs.dropWhile Char.isDigit
      let ws := afterDigits.takeWhile jsSpace
      let afterWs := afterDigits.dropWhile jsSpace
      if !ws.isEmpty && listPrefixEq "Season".data afterWs then
        some (digitsToNat (c :: cs.takeWhile Char.isDigit))
      else seasonNumFrom cs
    else seasonNumFrom cs

/-- `runtime.match(/(\d+)\s+Season/)` capture, as a number. -/
def seasonNum (s : String) : Option Nat := seasonNumFrom s.data

/-- JavaScript string split on a separator character. -/
def splitChar (sep : Char) : List Char → List (List Char)
  | [] => [[]]
  | c :: cs =>
    if c == sep then [] :: splitChar sep cs
    else
      match splitChar sep cs with
      | [] => [[c]]
      | g :: gs => (c :: g) :: gs

/-- `String.prototype.split(sep)`. -/
def jsSplit (sep : Char) (s : String) : List String :=
  (splitChar sep s.data).map String.mk

/-- `String.prototype.trim`. -/
def jsTrimStr (s : String) : String := String.mk (jsTrimList s.data)

/-- The genre list of an entry, from the source expression
`movie.genre ? movie.genre.split(",").map(g => g.trim()) : []`. -/
def movieGenres (m : Movie) : List String :=
  match m.genre with
  | some g => if g == "" then [] else (jsSplit ',' g).map jsTrimStr
  | none => []

/-! ### Filter stage (`filteredMovies` in `App.tsx`) -/

/-- Genre predicate: empty selection passes everything, else some selected
genre must occur in the genre list of the entry. -/
def genreMatch (selectedGenres : List String) (m : Movie) : Bool :=
  selectedGenres.isEmpty || selectedGenres.any (fun genre => (movieGenres m).contains genre)

/-- Year predicate. -/
def yearMatch (selectedYears : List Int) (m : Movie) : Bool :=
  selectedYears.isEmpty || selectedYears.contains m.year

/-- Search predicate: case-insensitive substring of title or description. -/
def searchMatch (searchQuery : String) (m : Movie) : Bool :=
  searchQuery == "" ||
    strIncludes (jsToLower m.title) (jsToLower searchQuery) ||
    strIncludes (jsToLower m.description) (jsToLower searchQuery)

/-- Rating predicate: `movieRating >= lo && movieRating <= hi` where
`movieRating = movie.imdbRating || movie.rating`.  When both fields are
absent the JavaScript comparison against `undefined` is false, so the
entry fails. -/
def ratingMatch (range : ℚ × ℚ) (m : Movie) : Bool :=
  match effectiveRating m with
  | some v => decide (range.1 ≤ v) && decide (v ≤ range.2)
  | none => false

/-- The source test `movie.runtime && movie.runtime.toLowerCase().includes("season")`. -/
def isSeasonRuntime (m : Movie) : Bool :=
  match m.runtime with
  | some r => r != "" && strIncludes (jsToLower r) "season"
  | none => false

/-- Runtime predicate, the `runtimeFilter` if-chain from `filteredMovies`. -/
def runtimeMatch (rf : String) (m : Movie) : Bool :=
  if rf == "all" then true
  else
    let runtimeMinutes := parseRuntime m.runtime
    let isSeason := isSeasonRuntime m
    if rf == "short" then
      !isSeason && decide (0 < runtimeMinutes) && decide (runtimeMinutes ≤ 90)
    else if rf == "medium" then
      !isSeason && decide (90 < runtimeMinutes) && decide (runtimeMinutes ≤ 150)
    else if rf == "long" then
      !isSeason && decide (150 < runtimeMinutes)
    else if rf == "oneSeason" then
      isSeason && (strIncludes (m.runtime.getD "") "1 Season" || m.runtime.getD "" == "1 Seasons")
    else if rf == "multiSeason" then
      isSeason &&
        (match seasonNum (m.runtime.getD "") with
         | some n => decide (1 < n)
         | none => false)
    else true

/-- Tag predicate. -/
def tagMatch (selectedTags : List String) (m : Movie) : Bool :=
  selectedTags.isEmpty ||
    (match m.tags with
     | none => false
     | some ts => selectedTags.any (fun tag => ts.contains tag))

/-- The filter parameters read by `filteredMovies`. -/
structure FilterParams where
  selectedGenres : List String
  selectedYears : List Int
  searchQuery : String
  imdbRatingRange : ℚ × ℚ
  runtimeFilter : String
  selectedTags : List String

/-- The conjunction of all six predicates, as returned by the filter
callback in `filteredMovies`. -/
def moviePasses (p : FilterParams) (m : Movie) : Bool :=
  genreMatch p.selectedGenres m && yearMatch p.selectedYears m &&
    searchMatch p.searchQuery m && ratingMatch p.imdbRatingRange m &&
    runtimeMatch p.runtimeFilter m && tagMatch p.selectedTags m

/-- The filter stage: `movies.filter(...)`. -/
def filteredMovies (p : FilterParams) (l : List Movie) : List Movie :=
  l.filter (moviePasses p)

/-! ### Sample entries and parameter states used by concrete theorems -/

/-- An entry with neither `imdbRating` nor `rating`. -/
def noRatingsEntry : Movie := ⟨1, "Ghost", "", 2000, some "Drama", none, none, none, none, none, none⟩

/-- A Drama entry passing every default filter. -/
def dramaEntry : Movie := ⟨2, "A", "", 2001, some "Drama", none, some 5, none, none, none, none⟩

/-- A Crime entry passing every default filter. -/
def crimeEntry : Movie := ⟨3, "B", "", 2002, some "Crime", none, some 5, none, none, none, none⟩

/-- A show whose runtime text denotes eleven seasons. -/
def elevenSeasonsEntry : Movie :=
  ⟨4, "Long Show", "", 2005, some "Drama", none, some 8, some "11 Seasons", none, none, none⟩

/-- The initial filter state of the UI: nothing selected, full rating range. -/
def defaultParams : FilterParams := ⟨[], [], "", (0, 10), "all", []⟩

/-! ### C1 — missing ratings and the rating-range filter -/

/-- C1 amended: the filter stage is a total function (the model of "never
throws"), but a missing rating is not treated as its minimal value: an
entry whose `imdbRating` and `rating` are both absent fails the
`imdbRatingRange` filter for every range — `undefined >= lo` is false in
JavaScript — so it never appears in the filtered result, not even for
ranges with `lo = 0` such as the default `[0, 10]`. -/
theorem missing_ratings_never_pass_filter (p : FilterParams) (l : List Movie) (m : Movie)
    (h1 : m.imdbRating = none) (h2 : m.rating = none) :
    m ∉ filteredMovies p l := by
  intro hmem
  have hpass := (List.mem_filter.mp hmem).2
  simp only [moviePasses, Bool.and_eq_true] at hpass
  have hrating := hpass.1.1.2
  rw [ratingMatch] at hrating
  rw [effectiveRating, h1, h2] at hrating
  simp [jsOrNum] at hrating

/-- Witness for `missing_ratings_never_pass_filter` at a concrete entry,
list and parameter state. -/
theorem missing_ratings_never_pass_filter_witness :
    noRatingsEntry.imdbRating = none ∧ noRatingsEntry.rating = none ∧
      noRatingsEntry ∉ filteredMovies defaultParams [noRatingsEntry] :=
  ⟨rfl, rfl, missing_ratings_never_pass_filter defaultParams [noRatingsEntry] noRatingsEntry rfl rfl⟩

/-- C1 counterexample: with the default full range `[0, 10]` (so `lo = 0`)
an entry with both rating fields absent does not pass the filter, contrary
to the claim that it passes whenever `lo = 0`. -/
theorem missing_ratings_counterexample :
    defaultParams.imdbRatingRange.1 = 0 ∧
      noRatingsEntry ∉ filteredMovies defaultParams [noRatingsEntry] := by
  constructor
  · rfl
  · decide

/-! ### C3 — the oneSeason runtime bucket -/

/-- C3: the entry whose runtime text is "11 Seasons" (eleven seasons, so
`n > 1`) nevertheless passes the `oneSeason` bucket, because the code
tests `movie.runtime.includes("1 Season")` and "11 Seasons" contains
"1 Season" as a substring; the same entry also passes `multiSeason`
(its parsed season count is 11).  This contradicts the claimed "passes if
and only if the runtime denotes exactly one season" and makes the two
season buckets overlap, a slip in the code rather than in the spec. -/
theorem runtime_oneSeason_accepts_eleven_seasons :
    runtimeMatch "oneSeason" elevenSeasonsEntry = true ∧
      runtimeMatch "multiSeason" elevenSeasonsEntry = true ∧
      seasonNum "11 Seasons" = some 11 := by
  decide

/-! ### C4 — monotonicity of genre filtering -/

/-- C4 amended: activating the genre predicate never increases the result
size — for every entry list and filter-parameter state, filtering with any
genre selection yields at most as many entries as the same state with the
genre predicate inactive (empty selection).  The original claim ("adding a
genre to the selection never increases the result size") fails, because a
genre selection is disjunctive: adding a genre to an already non-empty
selection can only widen the genre predicate (see the counterexample). -/
theorem genre_activation_never_increases (p : FilterParams) (l : List Movie)
    (gs : List String) :
    (filteredMovies { p with selectedGenres := gs } l).length ≤
      (filteredMovies { p with selectedGenres := [] } l).length := by
  unfold filteredMovies
  apply List.Sublist.length_le
  apply List.monotone_filter_right
  intro m hm
  simp only [moviePasses, Bool.and_eq_true] at hm ⊢
  exact ⟨⟨⟨⟨⟨by simp [genreMatch], hm.1.1.1.1.2⟩, hm.1.1.1.2⟩, hm.1.1.2⟩, hm.1.2⟩, hm.2⟩

/-- C4 counterexample: over the two-entry list `[dramaEntry, crimeEntry]`,
selecting `["Drama"]` yields one entry but adding the genre "Crime" to the
selection yields two — adding a genre increased the result-set size. -/
theorem adding_genre_increases_result :
    ¬ ((filteredMovies { defaultParams with selectedGenres := ["Drama", "Crime"] }
          [dramaEntry, crimeEntry]).length ≤
        (filteredMovies { defaultParams with selectedGenres := ["Drama"] }
          [dramaEntry, crimeEntry]).length) := by
  decide

/-! ### C6 — page-number behaviour of the UI handlers (`App.tsx`) -/

/-- The slice of component state read and written by the filter, sort and
pagination handlers. -/
structure AppState where
  selectedGenres : List String
  selectedYears : List Int
  selectedTags : List String
  searchQuery : String
  imdbRatingRange : ℚ × ℚ
  runtimeFilter : String
  sortBy : String
  currentPage : Nat

/-- `handleGenreChange`: toggle a genre and reset to page 1. -/
def handleGenreChange (genre : String) (checked : Bool) (s : AppState) : AppState :=
  { s with
    selectedGenres :=
      if checked then s.selectedGenres ++ [genre]
      else s.selectedGenres.filter (fun g => g != genre),
    currentPage := 1 }

/-- `handleYearChange`: toggle a year and reset to page 1. -/
def handleYearChange (year : Int) (checked : Bool) (s : AppState) : AppState :=
  { s with
    selectedYears :=
      if checked then s.selectedYears ++ [year]
      else s.selectedYears.filter (fun y => y != year),
    currentPage := 1 }

/-- `handleTagChange`: toggle a tag and reset to page 1. -/
def handleTagChange (tag : String) (checked : Bool) (s : AppState) : AppState :=
  { s with
    selectedTags :=
      if checked then s.selectedTags ++ [tag]
      else s.selectedTags.filter (fun t => t != tag),
    currentPage := 1 }

/-- The change handler of the search input: `setSearchQuery(value);
setCurrentPage(1)`. -/
def handleSearchChange (q : String) (s : AppState) : AppState :=
  { s with searchQuery := q, currentPage := 1 }

/-- The rating-range callback of the sidebar is the raw state setter
(`onImdbRatingChange = setImdbRatingRange`): no page reset. -/
def sidebarImdbRatingChange (r : ℚ × ℚ) (s : AppState) : AppState :=
  { s with imdbRatingRange := r }

/-- The runtime-filter callback of the sidebar is the raw state setter
(`onRuntimeChange = setRuntimeFilter`): no page reset. -/
def sidebarRuntimeChange (rf : String) (s : AppState) : AppState :=
  { s with runtimeFilter := rf }

/-- The callback of the sort dropdown is the raw state setter
(`onChange = setSortBy`): no page reset. -/
def sortDropdownChange (k : String) (s : AppState) : AppState :=
  { s with sortBy := k }

/-- C6 amended: changing the genre, year or tag selection or the search
query resets the page number to 1, and changing only the sort key leaves
it unchanged — but, contrary to the original claim, changing the
imdbRatingRange or the runtimeFilter also leaves the page number
unchanged, because the sidebar receives the raw state setters with no
accompanying `setCurrentPage(1)`. -/
theorem page_reset_behaviour (s : AppState) (g : String) (c : Bool) (y : Int)
    (tg q : String) (r : ℚ × ℚ) (rf k : String) :
    (handleGenreChange g c s).currentPage = 1 ∧
      (handleYearChange y c s).currentPage = 1 ∧
      (handleTagChange tg c s).currentPage = 1 ∧
      (handleSearchChange q s).currentPage = 1 ∧
      (sidebarImdbRatingChange r s).currentPage = s.currentPage ∧
      (sidebarRuntimeChange rf s).currentPage = s.currentPage ∧
      (sortDropdownChange k s).currentPage = s.currentPage :=
  ⟨rfl, rfl, rfl, rfl, rfl, rfl, rfl⟩

/-- A state currently on page 3. -/
def pageThreeState : AppState := ⟨[], [], [], "", (0, 10), "all", "dateAdded", 3⟩

/-- C6 counterexample: narrowing the rating range from page 3 leaves the
page number at 3, contradicting the claim that changing the
imdbRatingRange filter resets it to 1. -/
theorem rating_range_change_keeps_page :
    ¬ ((sidebarImdbRatingChange (0, 9) pageThreeState).currentPage = 1) := by
  decide

/-! ### C7 — slug resolution (`loadMovieData` in the detail page) -/

/-- The match predicate of the resolution algorithm:
`createSlug(m.title) === titleSlug || m.title.toLowerCase() ===
decodeSlug(titleSlug)`. -/
def slugMatches (titleSlug : String) (m : Movie) : Bool :=
  createSlug m.title == titleSlug || jsToLower m.title == decodeSlug titleSlug

/-- `allMoviesData.find(...)` over the candidate list. -/
def findMovieBySlug (titleSlug : String) (l : List Movie) : Option Movie :=
  l.find? (slugMatches titleSlug)

/-- What the detail page renders. -/
inductive DetailView
  | notFound
  | detail (m : Movie)
deriving DecidableEq

/-- The detail page: a `null` lookup result renders the "Movie not found"
state; it is not an exception. -/
def renderDetailPage (titleSlug : String) (l : List Movie) : DetailView :=
  match findMovieBySlug titleSlug l with
  | some m => DetailView.detail m
  | none => DetailView.notFound

theorem find?_eq_some_first {α : Type} (p : α → Bool) :
    ∀ (l : List α) (m : α), l.find? p = some m →
      p m = true ∧ ∃ pre post, l = pre ++ m :: post ∧ ∀ x ∈ pre, p x = false := by
  intro l
  induction l with
  | nil => intro m h; simp at h
  | cons c cs ih =>
    intro m h
    rw [List.find?_cons] at h
    cases hpc : p c with
    | true =>
      rw [hpc] at h
      simp only [Option.some.injEq] at h
      subst h
      exact ⟨hpc, [], cs, rfl, by simp⟩
    | false =>
      rw [hpc] at h
      obtain ⟨hpm, pre, post, heq, hall⟩ := ih m h
      refine ⟨hpm, c :: pre, post, by rw [heq]; rfl, ?_⟩
      intro x hx
      rcases List.mem_cons.mp hx with h' | h'
      · subst h'; exact hpc
      · exact hall x h'

/-- C7: slug resolution returns the first entry in list order whose title
either encodes to the requested slug or lowercases to the decoded slug;
when no entry matches it yields `none` and the detail view renders the
"not found" state instead of throwing. -/
theorem slug_resolution_first_match (titleSlug : String) (l : List Movie) :
    (∀ m, findMovieBySlug titleSlug l = some m →
        slugMatches titleSlug m = true ∧
          ∃ pre post, l = pre ++ m :: post ∧ ∀ x ∈ pre, slugMatches titleSlug x = false) ∧
      (findMovieBySlug titleSlug l = none ↔ ∀ x ∈ l, slugMatches titleSlug x = false) ∧
      (renderDetailPage titleSlug l = DetailView.notFound ↔
        ∀ x ∈ l, slugMatches titleSlug x = false) := by
  refine ⟨fun m h => find?_eq_some_first _ l m h, ?_, ?_⟩
  · rw [findMovieBySlug, List.find?_eq_none]
    constructor
    · intro h x hx; simpa using h x hx
    · intro h x hx; simp [h x hx]
  · rw [renderDetailPage]
    cases hf : findMovieBySlug titleSlug l with
    | some m =>
      simp only [reduceCtorEq, false_iff]
      intro hall
      have := (find?_eq_some_first _ l m hf).1
      have hmem := List.mem_of_find?_eq_some hf
      rw [hall m hmem] at this
      exact Bool.false_ne_true this
    | none =>
      simp only [true_iff]
      rw [findMovieBySlug, List.find?_eq_none] at hf
      intro x hx
      simpa using hf x hx

/-- Witness for `slug_resolution_first_match`: resolving "a" over the
one-entry list `[dramaEntry]` (title "A") finds that entry first. -/
theorem slug_resolution_first_match_witness :
    slugMatches "a" dramaEntry = true ∧
      ∃ pre post, ([dramaEntry] : List Movie) = pre ++ dramaEntry :: post ∧
        ∀ x ∈ pre, slugMatches "a" x = false :=
  (slug_resolution_first_match "a" [dramaEntry]).1 dramaEntry (by decide)

/-! ### C9 — similar/recommended movies (`loadMovieData` in the detail page) -/

/-- JavaScript truthiness of a possibly-absent string. -/
def jsTruthyStr : Option String → Bool
  | none => false
  | some s => s != ""

/-- The primary genre of the reference entry:
`genre.split(",")[0].trim().toLowerCase()`. -/
def primaryGenre (g : String) : String :=
  jsToLower (jsTrimStr ((jsSplit ',' g).headD ""))

/-- Whether some comma-separated token of `g` matches `firstGenre` after
trimming and lowercasing: `g.split(',').some(t => t.trim().toLowerCase()
=== firstGenre)`. -/
def genreTokenMatches (firstGenre g : String) : Bool :=
  (jsSplit ',' g).any (fun t => jsToLower (jsTrimStr t) == firstGenre)

/-- The filtered candidate list for the recommended-movies feature:
computed only when the genre of the reference entry is truthy, it keeps every
other entry (different id) with a truthy genre sharing the reference
primary genre. -/
def similarCandidates (ref : Movie) (l : List Movie) : List Movie :=
  match ref.genre with
  | none => []
  | some g =>
    if g == "" then []
    else
      l.filter (fun m =>
        m.id != ref.id && jsTruthyStr m.genre &&
          genreTokenMatches (primaryGenre g) (m.genre.getD ""))

/-- `shuffled.slice(0, 5)`: the recommendation list keeps the first five
entries of the shuffled candidates. -/
def pickFiveSimilar (shuffled : List Movie) : List Movie := shuffled.take 5

/-- C9: for every outcome of the random shuffle (any permutation of the
candidate list), every recommended entry differs from the reference entry
(their ids differ, hence the records differ), has some comma-separated
genre token equal — after trimming and lowercasing — to the reference
primary genre of the reference entry, and the recommendation list has at most 5
entries. -/
theorem similar_movies_invariant (ref : Movie) (l shuffled : List Movie)
    (hperm : shuffled.Perm (similarCandidates ref l)) :
    (pickFiveSimilar shuffled).length ≤ 5 ∧
      ∀ m ∈ pickFiveSimilar shuffled,
        m.id ≠ ref.id ∧ m ≠ ref ∧
          ∃ t ∈ jsSplit ',' (m.genre.getD ""),
            jsToLower (jsTrimStr t) = primaryGenre (ref.genre.getD "") := by
  constructor
  · rw [pickFiveSimilar, List.length_take]
    exact min_le_left _ _
  · intro m hm
    have hms : m ∈ shuffled := List.mem_of_mem_take hm
    have hmc : m ∈ similarCandidates ref l := hperm.mem_iff.mp hms
    cases hg : ref.genre with
    | none =>
      simp only [similarCandidates, hg] at hmc
      simp at hmc
    | some g =>
      simp only [similarCandidates, hg] at hmc
      by_cases hge : (g == "") = true
      · rw [if_pos hge] at hmc; simp at hmc
      · rw [if_neg hge] at hmc
        have hpred := (List.mem_filter.mp hmc).2
        simp only [Bool.and_eq_true] at hpred
        have hid : m.id ≠ ref.id := by simpa using hpred.1.1
        refine ⟨hid, fun he => hid (by rw [he]), ?_⟩
        have := List.any_eq_true.mp hpred.2
        obtain ⟨t, ht, hmatch⟩ := this
        exact ⟨t, by simpa [hg] using ht, by simpa using hmatch⟩

/-- Witness for `similar_movies_invariant`: the identity permutation of
the candidates of `dramaEntry` over a three-entry list. -/
theorem similar_movies_invariant_witness :
    (pickFiveSimilar (similarCandidates dramaEntry [dramaEntry, crimeEntry, noRatingsEntry])).length ≤ 5 ∧
      ∀ m ∈ pickFiveSimilar (similarCandidates dramaEntry [dramaEntry, crimeEntry, noRatingsEntry]),
        m.id ≠ dramaEntry.id ∧ m ≠ dramaEntry ∧
          ∃ t ∈ jsSplit ',' (m.genre.getD ""),
            jsToLower (jsTrimStr t) = primaryGenre (dramaEntry.genre.getD "") :=
  similar_movies_invariant dramaEntry [dramaEntry, crimeEntry, noRatingsEntry] _ (List.Perm.refl _)

/-! ### Sort stage (`sortedMovies` in `App.tsx`)

`Array.prototype.sort` is modelled as a stable insertion sort: each
element is inserted after the rightmost already-placed element `y` whose
comparator value against it is `<= 0` (elements are shifted right while
`comparator(y, x) > 0`).  Per the ECMAScript `SortCompare` step, a `NaN`
comparator result counts as `+0`.  The accumulator is kept reversed, so
the insertion scans it from its head (the right end of the sorted run). -/

/-- Insert `x` into the reversed accumulator: walk past elements `y` with
`gt y x` (they end up after `x` in the final order). -/
def insRev {α : Type} (gt : α → α → Bool) (x : α) : List α → List α
  | [] => [x]
  | y :: ys => if gt y x then y :: insRev gt x ys else x :: y :: ys

/-- Fold every element into the reversed accumulator. -/
def jsSortRevAcc {α : Type} (gt : α → α → Bool) (l : List α) : List α :=
  l.foldl (fun racc x => insRev gt x racc) []

/-- The modelled `Array.prototype.sort(comparator)`: `gt a b` is
"comparator(a, b) > 0". -/
def jsStableSort {α : Type} (gt : α → α → Bool) (l : List α) : List α :=
  (jsSortRevAcc gt l).reverse

/-- `String.prototype.localeCompare`, reduced to its sign on the default
default-locale order (modelled as lexicographic). -/
def localeCmp (a b : String) : ℚ :=
  if a < b then -1 else if b < a then 1 else 0

/-- The comparator switch of `sortedMovies`; a branch whose JavaScript
value would be `NaN` (a subtraction involving `undefined`) is written as
`0`, the value `SortCompare` substitutes for `NaN`. -/
def cmpMovies (sortBy : String) (a b : Movie) : ℚ :=
  if sortBy == "dateAdded" then ((b.id - a.id : ℤ) : ℚ)
  else if sortBy == "dateAddedLatest" then ((a.id - b.id : ℤ) : ℚ)
  else if sortBy == "title" then localeCmp a.title b.title
  else if sortBy == "year" then ((b.year - a.year : ℤ) : ℚ)
  else if sortBy == "imdbRating" then
    match effectiveRating b, effectiveRating a with
    | some vb, some va => vb - va
    | _, _ => 0
  else if sortBy == "userRating" then b.userRating.getD 0 - a.userRating.getD 0
  else if sortBy == "communityRating" then b.communityRating.getD 0 - a.communityRating.getD 0
  else 0

/-- The sort stage: `[...filteredMovies].sort(comparator)`. -/
def sortedMovies (sortBy : String) (l : List Movie) : List Movie :=
  jsStableSort (fun a b => decide (0 < cmpMovies sortBy a b)) l

/-! ### Generic sortedness of the modelled sort -/

theorem mem_insRev {α : Type} {gt : α → α → Bool} {x z : α} :
    ∀ {l : List α}, z ∈ insRev gt x l → z = x ∨ z ∈ l := by
  intro l
  induction l with
  | nil => intro h; simpa [insRev] using h
  | cons y ys ih =>
    intro h
    rw [insRev] at h
    by_cases hgt : gt y x = true
    · rw [if_pos hgt] at h
      rcases List.mem_cons.mp h with h' | h'
      · exact Or.inr (h' ▸ List.mem_cons_self _ _)
      · rcases ih h' with h'' | h''
        · exact Or.inl h''
        · exact Or.inr (List.mem_cons_of_mem _ h'')
    · rw [if_neg hgt] at h
      rcases List.mem_cons.mp h with h' | h'
      · exact Or.inl h'
      · exact Or.inr h'

theorem chain'_insRev {α : Type} {R : α → α → Prop} {gt : α → α → Bool} {x : α} :
    ∀ {l : List α}, l.Chain' R →
      (∀ y ∈ l, gt y x = true → R y x) →
      (∀ y ∈ l, gt y x = false → R x y) →
      (insRev gt x l).Chain' R ∧
        (∀ z, (insRev gt x l).head? = some z → z = x ∨ l.head? = some z) := by
  intro l
  induction l with
  | nil =>
    intro _ _ _
    exact ⟨List.chain'_singleton x, fun z hz => Or.inl (by simpa [insRev] using hz.symm)⟩
  | cons y ys ih =>
    intro hchain h1 h2
    rw [insRev]
    by_cases hgt : gt y x = true
    · rw [if_pos hgt]
      have hchain' := hchain.tail
      have ihres := ih hchain'
        (fun z hz => h1 z (List.mem_cons_of_mem _ hz))
        (fun z hz => h2 z (List.mem_cons_of_mem _ hz))
      constructor
      · rw [List.chain'_cons']
        refine ⟨?_, ihres.1⟩
        intro z hz
        rcases ihres.2 z hz with rfl | hz'
        · exact h1 y (List.mem_cons_self _ _) hgt
        · exact (List.chain'_cons'.mp hchain).1 z hz'
      · intro z hz
        exact Or.inr (by simpa using hz)
    · rw [if_neg hgt]
      constructor
      · rw [List.chain'_cons']
        refine ⟨?_, hchain⟩
        intro z hz
        simp only [List.head?_cons, Option.mem_def, Option.some.injEq] at hz
        rw [← hz]
        exact h2 y (List.mem_cons_self _ _) (by simpa using hgt)
      · intro z hz
        exact Or.inl (by simpa using hz.symm)

theorem chain'_foldl_insRev {α : Type} {R : α → α → Prop} {gt : α → α → Bool}
    (S : α → Prop)
    (hS : ∀ x, S x → ∀ y, S y → (gt y x = true → R y x) ∧ (gt y x = false → R x y)) :
    ∀ (l racc : List α), (∀ x ∈ l, S x) → (∀ y ∈ racc, S y) → racc.Chain' R →
      (l.foldl (fun acc x => insRev gt x acc) racc).Chain' R := by
  intro l
  induction l with
  | nil =>
    intro racc _ _ hchain
    simpa using hchain
  | cons x xs ih =>
    intro racc hlS hrS hchain
    rw [List.foldl_cons]
    have hxS : S x := hlS x (List.mem_cons_self _ _)
    refine ih (insRev gt x racc) (fun z hz => hlS z (List.mem_cons_of_mem _ hz)) ?_ ?_
    · intro z hz
      rcases mem_insRev hz with rfl | hz'
      · exact hxS
      · exact hrS z hz'
    · exact (chain'_insRev hchain
        (fun y hy hgt => (hS x hxS y (hrS y hy)).1 hgt)
        (fun y hy hgt => (hS x hxS y (hrS y hy)).2 hgt)).1

theorem chain'_jsStableSort {α : Type} {R : α → α → Prop} {gt : α → α → Bool}
    (l : List α)
    (h : ∀ x ∈ l, ∀ y ∈ l, (gt y x = true → R y x) ∧ (gt y x = false → R x y)) :
    (jsStableSort gt l).Chain' (flip R) := by
  rw [jsStableSort]
  rw [List.chain'_reverse]
  exact chain'_foldl_insRev (fun a => a ∈ l)
    (fun x hx y hy => h x hx y hy) l [] (fun x hx => hx) (by simp) (by simp)

/-! ### C5 — sortedness of the sort stage -/

/-- An entry with effective rating 1. -/
def lowRatedEntry : Movie := ⟨11, "R1", "", 2000, none, none, some 1, none, none, none, none⟩

/-- An entry with no rating at all (effective rating undefined). -/
def unratedEntryA : Movie := ⟨12, "R2", "", 2000, none, none, none, none, none, none, none⟩

/-- A second entry with no rating at all. -/
def unratedEntryB : Movie := ⟨13, "R3", "", 2000, none, none, none, none, none, none, none⟩

/-- An entry with effective rating 9. -/
def highRatedEntry : Movie := ⟨14, "R4", "", 2000, none, none, some 9, none, none, none, none⟩

/-- C5 amended: the sort output is non-increasing in the effective key
value for the descending keys dateAdded, year, imdbRating, userRating and
communityRating, and non-decreasing for dateAddedLatest, under the
documented substitutions (missing imdbRating falls back to rating, missing
userRating/communityRating sort as 0) — provided, for the imdbRating key,
that every entry has a present effective rating.  The originally claimed
"a missing numeric value sorts as 0" fails for the imdbRating key: there
the comparator subtracts a value from `undefined`, yielding NaN, which
`SortCompare` treats as +0 (a tie with everything), so entries with no
rating need not end up where a 0 key would place them (see the
counterexample). -/
theorem sort_keys_monotone (l : List Movie) :
    (sortedMovies "dateAdded" l).Chain' (fun a b => b.id ≤ a.id) ∧
      (sortedMovies "dateAddedLatest" l).Chain' (fun a b => a.id ≤ b.id) ∧
      (sortedMovies "year" l).Chain' (fun a b => b.year ≤ a.year) ∧
      ((∀ m ∈ l, (effectiveRating m).isSome = true) →
        (sortedMovies "imdbRating" l).Chain'
          (fun a b => (effectiveRating b).getD 0 ≤ (effectiveRating a).getD 0)) ∧
      (sortedMovies "userRating" l).Chain'
        (fun a b => b.userRating.getD 0 ≤ a.userRating.getD 0) ∧
      (sortedMovies "communityRating" l).Chain'
        (fun a b => b.communityRating.getD 0 ≤ a.communityRating.getD 0) := by
  refine ⟨?_, ?_, ?_, ?_, ?_, ?_⟩
  · show (jsStableSort (fun a b => decide (0 < cmpMovies "dateAdded" a b)) l).Chain'
        (flip (fun a b : Movie => a.id ≤ b.id))
    apply chain'_jsStableSort
    intro x hx y hy
    constructor
    · intro hgt
      have h := of_decide_eq_true hgt
      rw [show cmpMovies "dateAdded" y x = ((x.id - y.id : ℤ) : ℚ) from rfl] at h
      have h2 : (0:ℤ) < x.id - y.id := by exact_mod_cast h
      omega
    · intro hgt
      have h : ¬ (0 < cmpMovies "dateAdded" y x) := of_decide_eq_false hgt
      rw [show cmpMovies "dateAdded" y x = ((x.id - y.id : ℤ) : ℚ) from rfl] at h
      have h2 : ¬ ((0:ℤ) < x.id - y.id) := by exact_mod_cast h
      omega
  · show (jsStableSort (fun a b => decide (0 < cmpMovies "dateAddedLatest" a b)) l).Chain'
        (flip (fun a b : Movie => b.id ≤ a.id))
    apply chain'_jsStableSort
    intro x hx y hy
    constructor
    · intro hgt
      have h := of_decide_eq_true hgt
      rw [show cmpMovies "dateAddedLatest" y x = ((y.id - x.id : ℤ) : ℚ) from rfl] at h
      have h2 : (0:ℤ) < y.id - x.id := by exact_mod_cast h
      omega
    · intro hgt
      have h : ¬ (0 < cmpMovies "dateAddedLatest" y x) := of_decide_eq_false hgt
      rw [show cmpMovies "dateAddedLatest" y x = ((y.id - x.id : ℤ) : ℚ) from rfl] at h
      have h2 : ¬ ((0:ℤ) < y.id - x.id) := by exact_mod_cast h
      omega
  · show (jsStableSort (fun a b => decide (0 < cmpMovies "year" a b)) l).Chain'
        (flip (fun a b : Movie => a.year ≤ b.year))
    apply chain'_jsStableSort
    intro x hx y hy
    constructor
    · intro hgt
      have h := of_decide_eq_true hgt
      rw [show cmpMovies "year" y x = ((x.year - y.year : ℤ) : ℚ) from rfl] at h
      have h2 : (0:ℤ) < x.year - y.year := by exact_mod_cast h
      omega
    · intro hgt
      have h : ¬ (0 < cmpMovies "year" y x) := of_decide_eq_false hgt
      rw [show cmpMovies "year" y x = ((x.year - y.year : ℤ) : ℚ) from rfl] at h
      have h2 : ¬ ((0:ℤ) < x.year - y.year) := by exact_mod_cast h
      omega
  · intro hall
    show (jsStableSort (fun a b => decide (0 < cmpMovies "imdbRating" a b)) l).Chain'
        (flip (fun a b : Movie => (effectiveRating a).getD 0 ≤ (effectiveRating b).getD 0))
    apply chain'_jsStableSort
    intro x hx y hy
    obtain ⟨vx, hvx⟩ := Option.isSome_iff_exists.mp (hall x hx)
    obtain ⟨vy, hvy⟩ := Option.isSome_iff_exists.mp (hall y hy)
    have hc : cmpMovies "imdbRating" y x = vx - vy := by
      simp [cmpMovies, hvx, hvy]
    constructor
    · intro hgt
      have h := of_decide_eq_true hgt
      rw [hc] at h
      simp only [hvx, hvy, Option.getD_some]
      linarith
    · intro hgt
      have h : ¬ (0 < cmpMovies "imdbRating" y x) := of_decide_eq_false hgt
      rw [hc] at h
      simp only [hvx, hvy, Option.getD_some]
      linarith
  · show (jsStableSort (fun a b => decide (0 < cmpMovies "userRating" a b)) l).Chain'
        (flip (fun a b : Movie => a.userRating.getD 0 ≤ b.userRating.getD 0))
    apply chain'_jsStableSort
    intro x hx y hy
    have hc : cmpMovies "userRating" y x = x.userRating.getD 0 - y.userRating.getD 0 := rfl
    constructor
    · intro hgt
      have h := of_decide_eq_true hgt
      rw [hc] at h
      linarith
    · intro hgt
      have h : ¬ (0 < cmpMovies "userRating" y x) := of_decide_eq_false hgt
      rw [hc] at h
      linarith
  · show (jsStableSort (fun a b => decide (0 < cmpMovies "communityRating" a b)) l).Chain'
        (flip (fun a b : Movie => a.communityRating.getD 0 ≤ b.communityRating.getD 0))
    apply chain'_jsStableSort
    intro x hx y hy
    have hc : cmpMovies "communityRating" y x =
        x.communityRating.getD 0 - y.communityRating.getD 0 := rfl
    constructor
    · intro hgt
      have h := of_decide_eq_true hgt
      rw [hc] at h
      linarith
    · intro hgt
      have h : ¬ (0 < cmpMovies "communityRating" y x) := of_decide_eq_false hgt
      rw [hc] at h
      linarith

/-- Witness for `sort_keys_monotone` at a concrete two-entry list whose
entries all have a present effective rating. -/
theorem sort_keys_monotone_witness :
    (sortedMovies "imdbRating" [dramaEntry, crimeEntry]).Chain'
      (fun a b => (effectiveRating b).getD 0 ≤ (effectiveRating a).getD 0) :=
  (sort_keys_monotone [dramaEntry, crimeEntry]).2.2.2.1 (by decide)

/-- C5 counterexample: sorting `[1, undefined, undefined, 9]` (effective
ratings) by imdbRating leaves the list in its original order, because
every comparison against an unrated entry yields NaN, treated as a tie;
under the claimed substitution rule (missing sorts as 0) the output key
sequence is `[1, 0, 0, 9]`, which is not non-increasing. -/
theorem imdb_sort_not_monotone_counterexample :
    ¬ (sortedMovies "imdbRating"
          [lowRatedEntry, unratedEntryA, unratedEntryB, highRatedEntry]).Chain'
        (fun a b => (effectiveRating b).getD 0 ≤ (effectiveRating a).getD 0) := by
  have hs : sortedMovies "imdbRating"
      [lowRatedEntry, unratedEntryA, unratedEntryB, highRatedEntry] =
      [lowRatedEntry, unratedEntryA, unratedEntryB, highRatedEntry] := by decide
  rw [hs]
  intro hchain
  simp only [List.chain'_cons, List.chain'_singleton, and_true] at hchain
  have h34 := hchain.2.2
  simp only [unratedEntryB, highRatedEntry, effectiveRating, jsOrNum] at h34
  norm_num at h34

/-! ### C8 — the three stored copies of a User record (server auth handlers)

The key-value store is modelled as a function from keys to optional user
records; `kv.set`/`kv.del` are pointwise updates.  The three auth
mutations are translated from `supabase/functions/server/index.tsx`,
preserving the order of the store writes and, crucially, the value each
write captures at the time it happens. -/

/-- The stored User record. -/
structure UserRec where
  id : String
  username : String
  email : String
  password : String
  profilePicture : Option String
  createdAt : Int
deriving DecidableEq

/-- The namespaced store, restricted to user records. -/
def KVStore : Type := String → Option UserRec

/-- `kv.set(key, value)`. -/
def kvSet (k : String) (v : UserRec) (s : KVStore) : KVStore :=
  fun q => if q = k then some v else s q

/-- `kv.del(key)`. -/
def kvDel (k : String) (s : KVStore) : KVStore :=
  fun q => if q = k then none else s q

/-- An empty store. -/
def emptyStore : KVStore := fun _ => none

/-- `POST /auth/signup`: validate, reject duplicate username/email, then
store the same record under the id, username and email keys.  The fresh
id and timestamp are parameters (the code derives them from `Date.now()`
and `Math.random()`). -/
def signup (store : KVStore) (username email password userId : String) (now : Int) :
    Except (String × Nat) KVStore :=
  if username = "" ∨ email = "" ∨ password = "" then
    Except.error ("Missing required fields", 400)
  else
    match store ("user:username:" ++ jsToLower username) with
    | some _ => Except.error ("Username already exists", 400)
    | none =>
      match store ("user:email:" ++ jsToLower email) with
      | some _ => Except.error ("Email already registered", 400)
      | none =>
        let user : UserRec := ⟨userId, username, jsToLower email, password, none, now⟩
        Except.ok
          (kvSet ("user:email:" ++ jsToLower email) user
            (kvSet ("user:username:" ++ jsToLower username) user
              (kvSet ("user:id:" ++ userId) user store)))

/-- `if (password && password.trim() !== "") updatedUser.password = password`. -/
def applyPassword (u : UserRec) (passwordField : Option String) : UserRec :=
  match passwordField with
  | some p => if jsTrimStr p ≠ "" then { u with password := p } else u
  | none => u

/-- `if (profilePicture !== undefined) updatedUser.profilePicture = ...`. -/
def applyProfilePicture (u : UserRec) (pictureField : Option String) : UserRec :=
  match pictureField with
  | some p => { u with profilePicture := some p }
  | none => u

/-- `PATCH /auth/profile`.  When the email changes, the handler deletes the
old email key and immediately writes the new email key with the record as
it stands at that moment — before the password and profile-picture updates
are applied — then writes the fully-updated record under the id and
username keys and skips the final email write. -/
def updateProfile (store : KVStore) (userId : String)
    (emailField passwordField pictureField : Option String) :
    Except (String × Nat) KVStore :=
  if userId = "" then Except.error ("User ID is required", 400)
  else
    match store ("user:id:" ++ userId) with
    | none => Except.error ("User not found", 404)
    | some user =>
      let emailChange : Option String :=
        match emailField with
        | some e => if e ≠ "" ∧ e ≠ user.email then some e else none
        | none => none
      match emailChange with
      | some e =>
        let emailLower := jsToLower e
        let conflict : Bool :=
          match store ("user:email:" ++ emailLower) with
          | some ex => ex.id != userId
          | none => false
        if conflict then Except.error ("Email already in use", 400)
        else
          let store₁ := kvDel ("user:email:" ++ jsToLower user.email) store
          let u₁ := { user with email := emailLower }
          let store₂ := kvSet ("user:email:" ++ emailLower) u₁ store₁
          let u₃ := applyProfilePicture (applyPassword u₁ passwordField) pictureField
          let store₃ := kvSet ("user:id:" ++ userId) u₃ store₂
          Except.ok (kvSet ("user:username:" ++ jsToLower user.username) u₃ store₃)
      | none =>
        let u₃ := applyProfilePicture (applyPassword user passwordField) pictureField
        let store₃ := kvSet ("user:id:" ++ userId) u₃ store
        let store₄ := kvSet ("user:username:" ++ jsToLower user.username) u₃ store₃
        Except.ok (kvSet ("user:email:" ++ jsToLower user.email) u₃ store₄)

/-- `POST /auth/reset-password`: look the user up by email and write the
same password-updated record under all three keys. -/
def resetPassword (store : KVStore) (email newPassword : String) :
    Except (String × Nat) KVStore :=
  if email = "" ∨ newPassword = "" then
    Except.error ("Email and new password are required", 400)
  else
    match store ("user:email:" ++ jsToLower email) with
    | none => Except.error ("User not found", 404)
    | some user =>
      let u := { user with password := newPassword }
      Except.ok
        (kvSet ("user:email:" ++ jsToLower user.email) u
          (kvSet ("user:username:" ++ jsToLower user.username) u
            (kvSet ("user:id:" ++ user.id) u store)))

/-- Whether a handler returned success. -/
def succeeded (e : Except (String × Nat) KVStore) : Bool :=
  match e with
  | Except.ok _ => true
  | Except.error _ => false

/-- The store a successful handler produced. -/
def storeOf (e : Except (String × Nat) KVStore) : KVStore :=
  match e with
  | Except.ok s => s
  | Except.error _ => emptyStore

/-- Signing up user u1 (alice, a@x.com, password pw1) on an empty store. -/
def signupResult : Except (String × Nat) KVStore :=
  signup emptyStore "alice" "a@x.com" "pw1" "u1" 0

/-- The store after that signup. -/
def storeAfterSignup : KVStore := storeOf signupResult

/-- A single profile update changing both the email (to b@x.com) and the
password (to pw2). -/
def profileUpdateResult : Except (String × Nat) KVStore :=
  updateProfile storeAfterSignup "u1" (some "b@x.com") (some "pw2") none

/-- The store after that profile update. -/
def storeAfterUpdate : KVStore := storeOf profileUpdateResult

/-- C8: evaluating the code at the failing input.  After a successful
signup, a single successful profile update that changes both email and
password leaves the id and username copies carrying the new password but
the email copy carrying the old one: the new email key is written before
the password update is applied to the record, and the final email write is
skipped because the email changed.  The three copies are not identical,
contradicting the claim. -/
theorem profile_update_desyncs_copies :
    succeeded signupResult = true ∧
      succeeded profileUpdateResult = true ∧
      (storeAfterUpdate "user:id:u1").map UserRec.password = some "pw2" ∧
      (storeAfterUpdate "user:username:alice").map UserRec.password = some "pw2" ∧
      (storeAfterUpdate "user:email:b@x.com").map UserRec.password = some "pw1" ∧
      storeAfterUpdate "user:id:u1" ≠ storeAfterUpdate "user:email:b@x.com" := by
  decide
